import Mathlib

/-!
Shallow embedding of the route-map playback engine
(`mapObjectsDictionary` and `mapObjectsViewModel` modules).

JavaScript numbers that actually flow through the trajectory algorithms are
modelled as rationals (`ℚ`).  The `add` entry point of a `MapObject` also has
to deal with malformed inputs (non-numbers, `NaN`, `Infinity`), so point
validation is embedded over a small JavaScript-value type `JSVal`.
State mutation is modelled by explicit state passing: every operation returns
the new state (and, where relevant, the emitted events and the thrown error).
-/

namespace RouteMap

/-- A JavaScript value as far as the point-validation code can observe it:
finite numbers, the non-finite numbers `NaN` / `Infinity` / `-Infinity`
(all of which satisfy underscore's `_.isNumber`), strings and `undefined`. -/
inductive JSVal where
  | num (q : ℚ)
  | nan
  | inf
  | neginf
  | str (s : String)
  | undef
deriving DecidableEq

/-- Underscore's `_.isNumber`: true exactly for number-typed values,
including `NaN` and the infinities. -/
def isNumber : JSVal → Bool
  | JSVal.num _ => true
  | JSVal.nan => true
  | JSVal.inf => true
  | JSVal.neginf => true
  | _ => false

/-- The JavaScript `>` comparison on the values that reach the order check in
`MapObject.add`.  Both operands have passed `isNumber` there, so only
number-typed operands matter: any comparison involving `NaN` is false, and the
infinities compare as expected.  Non-number operands (unreachable in `add`)
fall through to `false`, the result JavaScript gives for `NaN`-coercing
operands. -/
def jsGt : JSVal → JSVal → Bool
  | JSVal.num a, JSVal.num b => decide (a > b)
  | JSVal.num _, JSVal.neginf => true
  | JSVal.inf, JSVal.num _ => true
  | JSVal.inf, JSVal.neginf => true
  | _, _ => false

/-- A point as received by `MapObject.add`: the three fields may hold
arbitrary JavaScript values before validation. -/
structure JSPoint where
  ts : JSVal
  lat : JSVal
  lon : JSVal
deriving DecidableEq

/-- The two exceptions `MapObject.add` can throw:
`invalidPoint` for `'Argument exception. Invalid point format'` and
`outOfOrderPoint` for the timestamp-regression message. -/
inductive AddError where
  | invalidPoint
  | outOfOrderPoint
deriving DecidableEq

/-- `MapObject.add(point)`.  Returns the points array after the call together
with the thrown error, if any; a throw happens before the `push`, so the
array is returned unchanged in that case.  The argument is `Option JSPoint`
so that a missing (`null`/`undefined`) point is representable (`!point`). -/
def addState (points : List JSPoint) (point : Option JSPoint) :
    List JSPoint × Option AddError :=
  match point with
  | none => (points, some AddError.invalidPoint)
  | some p =>
    if !(isNumber p.ts) || !(isNumber p.lat) || !(isNumber p.lon) then
      (points, some AddError.invalidPoint)
    else
      match points.getLast? with
      | some lastPoint =>
        if jsGt lastPoint.ts p.ts then (points, some AddError.outOfOrderPoint)
        else (points ++ [p], none)
      | none => (points ++ [p], none)

/-- A sequence of `add` calls on one entity starting from an empty points
array; a call that throws leaves the array untouched and the sequence
continues. -/
def runAdds (seq : List JSPoint) : List JSPoint :=
  seq.foldl (fun pts p => (addState pts (some p)).1) []

/-- The stored points are in non-decreasing timestamp order (with the
timestamps being finite numbers, the only case in which an order is
defined). -/
def tsLeNum (a b : JSVal) : Prop :=
  ∃ x y, a = JSVal.num x ∧ b = JSVal.num y ∧ x ≤ y

/-- Sortedness of a points array by timestamp. -/
def tsSorted (l : List JSPoint) : Prop :=
  List.Chain' (fun p q => tsLeNum p.ts q.ts) l

/-- A fully numeric point `{ ts, lat, lon }`, the form every point has inside
the position-calculation code. -/
structure Point where
  ts : ℚ
  lat : ℚ
  lon : ℚ
deriving DecidableEq

/-- `defaultObjectTimeout`: "How many seconds we show object on map after we
think it disappears." -/
def defaultObjectTimeout : ℚ := 300

/-- `inTimeoutLimit(currentTime, point)` — whether the point is within the
default staleness tolerance of the current time.  (The source passes a stray
second argument to `Math.abs`, which JavaScript ignores.) -/
def inTimeoutLimit (currentTime : ℚ) (p : Point) : Bool :=
  decide (|currentTime - p.ts| ≤ defaultObjectTimeout)

/-- The eviction `while` loop inside `MapObject.calculatePos`.

The loop variable `firstPoint` starts as `_.first(points)` and is re-assigned
the *return value of* `points.shift()` — i.e. the element just removed — on
every iteration, and the loop condition re-reads that variable.  The break
guard, by contrast, re-reads the live array via `_.first(points)`.  Both
behaviours are reproduced exactly here: `fp` is the loop variable, the list
argument is the live array. -/
def evictLoop (currentTime deadline : ℚ) : Option Point → List Point → List Point
  | none, points => points
  | some firstPoint, points =>
    if firstPoint.ts < deadline then
      match points with
      | [] => []
      | q :: rest =>
        if rest.isEmpty && inTimeoutLimit currentTime q then q :: rest
        else evictLoop currentTime deadline (some q) rest
    else points

/-- The whole eviction pass: `deadline = currentTime - timeWindow`,
`firstPoint = _.first(points)`, then the loop runs on the live array. -/
def evict (currentTime timeWindow : ℚ) (points : List Point) : List Point :=
  evictLoop currentTime (currentTime - timeWindow) points.head? points

/-- The historical-mode position lookup in `MapObject.calculatePos`: scan for
the first index whose point's `ts` strictly exceeds `currentTime` (the scan
ends at `points.length` when there is none), then interpolate between that
point and its predecessor when the index is neither `0` nor past the end. -/
def histLookup (points : List Point) (currentTime : ℚ) : Option (ℚ × ℚ) :=
  let nextPointIndex := points.findIdx (fun q => decide (currentTime < q.ts))
  if nextPointIndex ≠ 0 ∧ nextPointIndex < points.length then
    match points[nextPointIndex - 1]?, points[nextPointIndex]? with
    | some currentPoint, some nextPoint =>
      let p := (currentTime - currentPoint.ts) / (nextPoint.ts - currentPoint.ts)
      some (currentPoint.lat + (nextPoint.lat - currentPoint.lat) * p,
            currentPoint.lon + (nextPoint.lon - currentPoint.lon) * p)
    | _, _ => none
  else none

/-- The `if (lat && lon)` render guard at the end of `calculatePos`: the
marker is placed/moved only when both coordinates were assigned and both are
truthy (a coordinate equal to `0` is falsy), otherwise `clearPos` runs. -/
def renderGuard (pos : Option (ℚ × ℚ)) : Option (ℚ × ℚ) :=
  match pos with
  | some (la, lo) => if la ≠ 0 ∧ lo ≠ 0 then some (la, lo) else none
  | none => none

/-- `MapObject.calculatePos(currentTime, realtime, timeWindow)` for an entity
whose `showObject` flag and points array are given.  Returns the points array
after eviction together with the rendered marker position (`none` means the
marker is removed / `clearPos`).  `if (timeWindow)` makes a `0` or absent
time window skip eviction. -/
def calculatePos (showObject : Bool) (points : List Point) (currentTime : ℚ)
    (realtime : Bool) (timeWindow : Option ℚ) : List Point × Option (ℚ × ℚ) :=
  if showObject then
    let pts :=
      match timeWindow with
      | some tw => if tw = 0 then points else evict currentTime tw points
      | none => points
    let pos :=
      if realtime then
        match pts.getLast? with
        | some lastPoint => some (lastPoint.lat, lastPoint.lon)
        | none => none
      else histLookup pts currentTime
    (pts, renderGuard pos)
  else (points, none)

/-- Sortedness of a numeric points array by timestamp. -/
def ptsSorted (l : List Point) : Prop :=
  List.Pairwise (fun a b => a.ts ≤ b.ts) l

theorem mem_of_getLast?_eq {α : Type} {l : List α} {a : α}
    (h : l.getLast? = some a) : a ∈ l := by
  induction l with
  | nil => simp at h
  | cons x xs ih =>
    cases xs with
    | nil =>
      simp only [List.getLast?_singleton, Option.some.injEq] at h
      simp [h]
    | cons y ys =>
      rw [List.getLast?_cons_cons] at h
      exact List.mem_cons_of_mem _ (ih h)

/-- A throwing `add` leaves the points array exactly as it was. -/
theorem addState_error_unchanged (pts : List JSPoint) (p : Option JSPoint)
    (h : (addState pts p).2.isSome) : (addState pts p).1 = pts := by
  match p with
  | none => rfl
  | some q =>
    simp only [addState] at h ⊢
    by_cases hv : (!(isNumber q.ts) || !(isNumber q.lat) || !(isNumber q.lon)) = true
    · simp [hv]
    · simp only [hv, Bool.false_eq_true, if_false] at h ⊢
      cases hl : pts.getLast? with
      | none => simp [hl] at h
      | some lastPoint =>
        simp only [hl] at h ⊢
        by_cases hgt : jsGt lastPoint.ts q.ts = true
        · simp [hgt]
        · simp [hgt] at h

/-- One successful or failing `add` preserves sortedness and finiteness of
the stored timestamps, provided the incoming timestamp is a finite number. -/
theorem addState_preserves (pts : List JSPoint) (p : JSPoint)
    (hs : tsSorted pts) (hfin : ∀ q ∈ pts, ∃ x, q.ts = JSVal.num x)
    (hp : ∃ x, p.ts = JSVal.num x) :
    tsSorted (addState pts (some p)).1 ∧
      ∀ q ∈ (addState pts (some p)).1, ∃ x, q.ts = JSVal.num x := by
  have hfin' : ∀ q ∈ pts ++ [p], ∃ x, q.ts = JSVal.num x := by
    intro q hq
    rcases List.mem_append.mp hq with hq | hq
    · exact hfin q hq
    · simp only [List.mem_singleton] at hq
      subst hq
      exact hp
  by_cases hv : (!(isNumber p.ts) || !(isNumber p.lat) || !(isNumber p.lon)) = true
  · have hred : addState pts (some p) = (pts, some AddError.invalidPoint) := by
      simp [addState, hv]
    rw [hred]
    exact ⟨hs, hfin⟩
  · cases hl : pts.getLast? with
    | none =>
      have hnil : pts = [] := List.getLast?_eq_none_iff.mp hl
      have hred : addState pts (some p) = (pts ++ [p], none) := by
        simp [addState, hv, hl]
      rw [hred]
      subst hnil
      refine ⟨?_, hfin'⟩
      rw [tsSorted]
      simp
    | some lastPoint =>
      by_cases hgt : jsGt lastPoint.ts p.ts = true
      · have hred : addState pts (some p) = (pts, some AddError.outOfOrderPoint) := by
          simp [addState, hv, hl, hgt]
        rw [hred]
        exact ⟨hs, hfin⟩
      · have hred : addState pts (some p) = (pts ++ [p], none) := by
          simp [addState, hv, hl, hgt]
        rw [hred]
        refine ⟨?_, hfin'⟩
        rw [tsSorted, List.chain'_append]
        refine ⟨hs, List.chain'_singleton p, ?_⟩
        intro a ha b hb
        simp only [List.head?_cons, Option.mem_def, Option.some.injEq] at hb
        subst hb
        rw [Option.mem_def, hl, Option.some.injEq] at ha
        subst ha
        obtain ⟨x, hx⟩ := hfin lastPoint (mem_of_getLast?_eq hl)
        obtain ⟨y, hy⟩ := hp
        simp only [hx, hy, jsGt, decide_eq_true_eq, not_lt] at hgt
        exact ⟨x, y, hx, hy, hgt⟩

/-- Folding a sequence of `add` calls over a sorted, finite-timestamp state
keeps the state sorted with finite timestamps. -/
theorem foldAdds_invariant (seq : List JSPoint) :
    ∀ pts : List JSPoint, tsSorted pts → (∀ q ∈ pts, ∃ x, q.ts = JSVal.num x) →
      (∀ p ∈ seq, ∃ x, p.ts = JSVal.num x) →
      tsSorted (seq.foldl (fun acc p => (addState acc (some p)).1) pts) := by
  induction seq with
  | nil =>
    intro pts hs _ _
    exact hs
  | cons p rest ih =>
    intro pts hs hfin hseq
    have hstep := addState_preserves pts p hs hfin (hseq p (List.mem_cons_self p rest))
    simp only [List.foldl_cons]
    exact ih _ hstep.1 hstep.2 (fun q hq => hseq q (List.mem_cons_of_mem p hq))

/-- C2: for every sequence of `add` calls with finite numeric timestamps the
stored points array stays sorted in non-decreasing `ts` order; an `add` whose
(numeric) `point.ts` is strictly below the last stored timestamp throws
`OutOfOrderPoint` and leaves the array unchanged; an `add` whose `point.ts`
equals the last stored timestamp is accepted and appended. -/
theorem c2_add_order_invariant :
    (∀ seq : List JSPoint, (∀ p ∈ seq, ∃ x, p.ts = JSVal.num x) →
      tsSorted (runAdds seq)) ∧
    (∀ (pts : List JSPoint) (p lastPoint : JSPoint) (x y : ℚ),
      pts.getLast? = some lastPoint → lastPoint.ts = JSVal.num x →
      p.ts = JSVal.num y → isNumber p.lat = true → isNumber p.lon = true →
      y < x → addState pts (some p) = (pts, some AddError.outOfOrderPoint)) ∧
    (∀ (pts : List JSPoint) (p lastPoint : JSPoint) (x : ℚ),
      pts.getLast? = some lastPoint → lastPoint.ts = JSVal.num x →
      p.ts = JSVal.num x → isNumber p.lat = true → isNumber p.lon = true →
      addState pts (some p) = (pts ++ [p], none)) := by
  refine ⟨?_, ?_, ?_⟩
  · intro seq hseq
    exact foldAdds_invariant seq [] List.chain'_nil (by simp) hseq
  · intro pts p lastPoint x y hl hx hy hlat hlon hlt
    have hgt : jsGt lastPoint.ts p.ts = true := by
      simp [hx, hy, jsGt, hlt]
    have hv : (!(isNumber p.ts) || !(isNumber p.lat) || !(isNumber p.lon)) = false := by
      rw [hy, hlat, hlon]
      simp [isNumber]
    simp [addState, hv, hl, hgt]
  · intro pts p lastPoint x hl hx hy hlat hlon
    have hgt : jsGt lastPoint.ts p.ts = false := by
      simp [hx, hy, jsGt]
    have hv : (!(isNumber p.ts) || !(isNumber p.lat) || !(isNumber p.lon)) = false := by
      rw [hy, hlat, hlon]
      simp [isNumber]
    simp [addState, hv, hl, hgt]

/-- Witness for C2 at concrete inputs: adds at `ts = 1, 3` stay sorted; with
last stored `ts = 5`, adding `ts = 3` throws `OutOfOrderPoint` leaving the
array unchanged and adding `ts = 5` (equal) is accepted. -/
theorem c2_add_order_invariant_witness :
    tsSorted (runAdds [⟨JSVal.num 1, JSVal.num 1, JSVal.num 1⟩,
        ⟨JSVal.num 3, JSVal.num 2, JSVal.num 2⟩]) ∧
    addState [⟨JSVal.num 5, JSVal.num 1, JSVal.num 1⟩]
        (some ⟨JSVal.num 3, JSVal.num 2, JSVal.num 2⟩)
      = ([⟨JSVal.num 5, JSVal.num 1, JSVal.num 1⟩], some AddError.outOfOrderPoint) ∧
    addState [⟨JSVal.num 5, JSVal.num 1, JSVal.num 1⟩]
        (some ⟨JSVal.num 5, JSVal.num 2, JSVal.num 2⟩)
      = ([⟨JSVal.num 5, JSVal.num 1, JSVal.num 1⟩,
          ⟨JSVal.num 5, JSVal.num 2, JSVal.num 2⟩], none) := by
  refine ⟨?_, ?_, ?_⟩
  · apply c2_add_order_invariant.1
    intro p hp
    simp only [List.mem_cons, List.not_mem_nil, or_false] at hp
    rcases hp with rfl | rfl
    · exact ⟨1, rfl⟩
    · exact ⟨3, rfl⟩
  · exact c2_add_order_invariant.2.1 _ _ ⟨JSVal.num 5, JSVal.num 1, JSVal.num 1⟩ 5 3
      rfl rfl rfl rfl rfl (by norm_num)
  · exact c2_add_order_invariant.2.2 _ _ ⟨JSVal.num 5, JSVal.num 1, JSVal.num 1⟩ 5
      rfl rfl rfl rfl rfl

/-- C6 counterexample: a point whose `ts` is `NaN` (or `Infinity`) is *not*
rejected — underscore's `_.isNumber` is true for `NaN` and `Infinity`, so the
point passes validation and is appended. -/
theorem c6_nan_accepted_counterexample :
    addState [] (some ⟨JSVal.nan, JSVal.num 1, JSVal.num 2⟩)
      = ([⟨JSVal.nan, JSVal.num 1, JSVal.num 2⟩], none) ∧
    addState [] (some ⟨JSVal.inf, JSVal.num 1, JSVal.num 2⟩)
      = ([⟨JSVal.inf, JSVal.num 1, JSVal.num 2⟩], none) := by
  constructor
  · simp [addState, isNumber]
  · simp [addState, isNumber]

/-- C6 amended: `add(point)` throws `InvalidPoint` iff the point is missing
or one of `ts`, `lat`, `lon` is not of number type; `NaN` and the infinities
count as numbers and are accepted.  A throwing `add` does not append. -/
theorem c6_invalid_point_amended (pts : List JSPoint) (p : Option JSPoint) :
    ((addState pts p).2 = some AddError.invalidPoint ↔
      p = none ∨ ∃ q, p = some q ∧
        (isNumber q.ts = false ∨ isNumber q.lat = false ∨ isNumber q.lon = false)) ∧
    ((addState pts p).2.isSome → (addState pts p).1 = pts) := by
  refine ⟨?_, addState_error_unchanged pts p⟩
  match p with
  | none => simp [addState]
  | some q =>
    by_cases hv : (!(isNumber q.ts) || !(isNumber q.lat) || !(isNumber q.lon)) = true
    · have hred : addState pts (some q) = (pts, some AddError.invalidPoint) := by
        simp [addState, hv]
      rw [hred]
      simp only [Option.some.injEq, true_iff]
      refine Or.inr ⟨q, rfl, ?_⟩
      have h3 : (isNumber q.ts = false ∨ isNumber q.lat = false) ∨
          isNumber q.lon = false := by
        simpa [Bool.or_eq_true, Bool.not_eq_true'] using hv
      exact or_assoc.mp h3
    · have h4 : (isNumber q.ts = true ∧ isNumber q.lat = true) ∧
          isNumber q.lon = true := by
        simpa [Bool.or_eq_true, Bool.not_eq_true'] using hv
      have hnum : ¬(isNumber q.ts = false ∨ isNumber q.lat = false ∨
          isNumber q.lon = false) := by
        rintro (hb | hb | hb)
        · rw [h4.1.1] at hb
          simp at hb
        · rw [h4.1.2] at hb
          simp at hb
        · rw [h4.2] at hb
          simp at hb
      have hrhs : ¬(some q = none ∨ ∃ r, some q = some r ∧
          (isNumber r.ts = false ∨ isNumber r.lat = false ∨
            isNumber r.lon = false)) := by
        rintro (h | ⟨r, hr, hbad⟩)
        · exact Option.some_ne_none q h
        · rw [Option.some.injEq] at hr
          subst hr
          exact hnum hbad
      simp only [addState, hv, Bool.false_eq_true, if_false]
      cases hl : pts.getLast? with
      | none => simpa using hrhs
      | some lastPoint =>
        by_cases hgt : jsGt lastPoint.ts q.ts = true
        · simpa [hgt] using hrhs
        · simpa [hgt] using hrhs

/-- Witness for C6 amended at a concrete input: an `undefined` timestamp
yields `InvalidPoint` and the array stays empty. -/
theorem c6_invalid_point_amended_witness :
    (addState [] (some ⟨JSVal.undef, JSVal.num 0, JSVal.num 0⟩)).2
      = some AddError.invalidPoint ∧
    (addState [] (some ⟨JSVal.undef, JSVal.num 0, JSVal.num 0⟩)).1 = [] :=
  ⟨(c6_invalid_point_amended [] (some ⟨JSVal.undef, JSVal.num 0, JSVal.num 0⟩)).1.mpr
      (Or.inr ⟨⟨JSVal.undef, JSVal.num 0, JSVal.num 0⟩, rfl, Or.inl rfl⟩),
   (c6_invalid_point_amended [] (some ⟨JSVal.undef, JSVal.num 0, JSVal.num 0⟩)).2
      (by simp [addState, isNumber])⟩

/-- C1: evaluating the eviction pass inside `calculatePos` at a concrete
input shows it removing a point that is *inside* the time window.  With
points at `ts = 0, 100, 200`, `currentTime = 1000` and `timeWindow = 950`
the deadline is `50`; the claim (and the spec) only allow the `ts = 0` point
to be dropped, but the code also drops the `ts = 100` point, because the
loop variable is re-assigned the element returned by `points.shift()` and
the loop condition re-reads that already-removed element. -/
theorem c1_eviction_overshoot :
    (calculatePos true [⟨0, 1, 1⟩, ⟨100, 2, 2⟩, ⟨200, 3, 3⟩] 1000 true
        (some 950)).1 = [⟨200, 3, 3⟩] ∧
    ¬((100 : ℚ) < 1000 - 950) := by
  constructor
  · norm_num [calculatePos, evict, evictLoop, inTimeoutLimit, defaultObjectTimeout]
  · norm_num

theorem renderGuard_of_ne {la lo : ℚ} (hla : la ≠ 0) (hlo : lo ≠ 0) :
    renderGuard (some (la, lo)) = some (la, lo) := by
  simp only [renderGuard]
  rw [if_pos ⟨hla, hlo⟩]

theorem renderGuard_eq_some {pos : Option (ℚ × ℚ)} {la lo : ℚ}
    (h : renderGuard pos = some (la, lo)) : la ≠ 0 ∧ lo ≠ 0 := by
  match pos with
  | none => simp [renderGuard] at h
  | some (a, b) =>
    simp only [renderGuard] at h
    by_cases hab : a ≠ 0 ∧ b ≠ 0
    · rw [if_pos hab] at h
      rw [Option.some.injEq, Prod.mk.injEq] at h
      obtain ⟨h1, h2⟩ := h
      subst h1
      subst h2
      exact hab
    · rw [if_neg hab] at h
      simp at h

/-- In a sorted points array every timestamp is at most the last one. -/
theorem ptsSorted_le_last : ∀ {l : List Point} {lp : Point},
    ptsSorted l → l.getLast? = some lp → ∀ p ∈ l, p.ts ≤ lp.ts := by
  intro l
  induction l with
  | nil =>
    intro lp _ h
    simp at h
  | cons x xs ih =>
    intro lp hs hl p hp
    cases xs with
    | nil =>
      rw [List.getLast?_singleton, Option.some.injEq] at hl
      subst hl
      simp only [List.mem_singleton] at hp
      subst hp
      exact le_refl _
    | cons y ys =>
      rw [List.getLast?_cons_cons] at hl
      rw [ptsSorted, List.pairwise_cons] at hs
      rcases List.mem_cons.mp hp with rfl | hp'
      · exact hs.1 lp (mem_of_getLast?_eq hl)
      · exact ih hs.2 hl p hp'

/-- The linear scan of `calculatePos` stops exactly at the bracketing index:
if position `j` is at or before `currentTime` and position `j + 1` is
strictly after it, the scan returns `j + 1`. -/
theorem findIdx_bracket : ∀ (l : List Point) (j : ℕ) (t : ℚ) (pj pk : Point),
    ptsSorted l → l[j]? = some pj → l[j + 1]? = some pk → pj.ts ≤ t →
    t < pk.ts → l.findIdx (fun q => decide (t < q.ts)) = j + 1 := by
  intro l
  induction l with
  | nil =>
    intro j t pj pk _ hj _ _ _
    simp at hj
  | cons x xs ih =>
    intro j t pj pk hs hj hk h1 h2
    cases j with
    | zero =>
      rw [List.getElem?_cons_zero, Option.some.injEq] at hj
      subst hj
      rw [List.getElem?_cons_succ] at hk
      have hpx : decide (t < x.ts) = false := by
        simp [not_lt.mpr h1]
      cases xs with
      | nil => simp at hk
      | cons y ys =>
        rw [List.getElem?_cons_zero, Option.some.injEq] at hk
        subst hk
        have hpy : decide (t < y.ts) = true := by
          simp [h2]
        simp [List.findIdx_cons, hpx, hpy, cond_false, cond_true]
    | succ n =>
      rw [List.getElem?_cons_succ] at hj hk
      have hmem : pj ∈ xs := by
        obtain ⟨hlt, heq⟩ := List.getElem?_eq_some.mp hj
        rw [← heq]
        exact List.getElem_mem hlt
      rw [ptsSorted, List.pairwise_cons] at hs
      have hxle : x.ts ≤ pj.ts := hs.1 pj hmem
      have hpx : decide (t < x.ts) = false := by
        simp [not_lt.mpr (le_trans hxle h1)]
      simp only [List.findIdx_cons, hpx, cond_false]
      rw [ih n t pj pk hs.2 hj hk h1 h2]

/-- The historical lookup at a bracketing index interpolates between the
bracketing points. -/
theorem histLookup_bracket (l : List Point) (j : ℕ) (t : ℚ) (pj pk : Point)
    (hs : ptsSorted l) (hj : l[j]? = some pj) (hk : l[j + 1]? = some pk)
    (h1 : pj.ts ≤ t) (h2 : t < pk.ts) :
    histLookup l t = some
      (pj.lat + (pk.lat - pj.lat) * ((t - pj.ts) / (pk.ts - pj.ts)),
       pj.lon + (pk.lon - pj.lon) * ((t - pj.ts) / (pk.ts - pj.ts))) := by
  have hidx := findIdx_bracket l j t pj pk hs hj hk h1 h2
  have hlen : j + 1 < l.length := (List.getElem?_eq_some.mp hk).1
  simp only [histLookup, hidx]
  rw [if_pos ⟨Nat.succ_ne_zero j, hlen⟩]
  simp only [Nat.add_sub_cancel, hj, hk]

/-- C3 counterexample: with bracketing points `(ts=0,lat=-5,lon=10)` and
`(ts=10,lat=5,lon=10)` at `currentTime = 5` the interpolated position is
`(0, 10)`, but `calculatePos` renders nothing — the `if (lat && lon)` guard
treats the interpolated latitude `0` as falsy — so the marker is not placed
at the interpolation as the claim states. -/
theorem c3_zero_interpolation_counterexample :
    histLookup [⟨0, -5, 10⟩, ⟨10, 5, 10⟩] 5 = some (0, 10) ∧
    (calculatePos true [⟨0, -5, 10⟩, ⟨10, 5, 10⟩] 5 false none).2 = none := by
  constructor
  · norm_num [histLookup, List.findIdx_cons]
  · norm_num [calculatePos, renderGuard, histLookup, List.findIdx_cons]

/-- C3 amended: in historical mode with no time window, whenever a sorted
points array brackets `currentTime` (point `j` at or before it, point
`j + 1` strictly after it), `calculatePos` places the marker at the linear
interpolation with fraction `p = (t - prev.ts) / (next.ts - prev.ts)` —
provided both interpolated coordinates are nonzero (a zero coordinate
clears the marker instead); in particular with points `(0,0,0)` and
`(10,10,20)` the call at time `5` renders `(5, 10)`. -/
theorem c3_interpolation_amended :
    (∀ (l : List Point) (j : ℕ) (t : ℚ) (pj pk : Point),
      ptsSorted l → l[j]? = some pj → l[j + 1]? = some pk →
      pj.ts ≤ t → t < pk.ts →
      pj.lat + (pk.lat - pj.lat) * ((t - pj.ts) / (pk.ts - pj.ts)) ≠ 0 →
      pj.lon + (pk.lon - pj.lon) * ((t - pj.ts) / (pk.ts - pj.ts)) ≠ 0 →
      (calculatePos true l t false none).2 = some
        (pj.lat + (pk.lat - pj.lat) * ((t - pj.ts) / (pk.ts - pj.ts)),
         pj.lon + (pk.lon - pj.lon) * ((t - pj.ts) / (pk.ts - pj.ts)))) ∧
    calculatePos true [⟨0, 0, 0⟩, ⟨10, 10, 20⟩] 5 false none
      = ([⟨0, 0, 0⟩, ⟨10, 10, 20⟩], some (5, 10)) := by
  constructor
  · intro l j t pj pk hs hj hk h1 h2 hla hlo
    have hbr := histLookup_bracket l j t pj pk hs hj hk h1 h2
    have hcp : (calculatePos true l t false none).2
        = renderGuard (histLookup l t) := by
      simp [calculatePos]
    rw [hcp, hbr, renderGuard_of_ne hla hlo]
  · norm_num [calculatePos, renderGuard, histLookup, List.findIdx_cons]

/-- Witness for C3 amended: bracketing points `(0,1,1)` and `(10,3,5)` at
time `5` render the interpolated position. -/
theorem c3_interpolation_amended_witness :
    (calculatePos true [⟨0, 1, 1⟩, ⟨10, 3, 5⟩] 5 false none).2 = some
      (1 + (3 - 1) * ((5 - 0) / (10 - 0)), 1 + (5 - 1) * ((5 - 0) / (10 - 0))) :=
  c3_interpolation_amended.1 [⟨0, 1, 1⟩, ⟨10, 3, 5⟩] 0 5 ⟨0, 1, 1⟩ ⟨10, 3, 5⟩
    (by norm_num [ptsSorted, List.pairwise_cons]) rfl rfl (by norm_num)
    (by norm_num) (by norm_num) (by norm_num)

/-- C4 counterexample: in real-time mode the most recent point is at
`ts = 5` with coordinates `(0, 3)`, but `calculatePos(100, true, null)`
renders nothing instead of that point's coordinates — the zero latitude is
falsy under the `if (lat && lon)` render guard. -/
theorem c4_realtime_zero_coord_counterexample :
    (calculatePos true [⟨1, 2, 2⟩, ⟨5, 0, 3⟩] 100 true none).2 = none ∧
    (calculatePos true [⟨1, 2, 2⟩, ⟨5, 0, 3⟩] 100 true none).2 ≠ some (0, 3) := by
  have h1 : (calculatePos true [⟨1, 2, 2⟩, ⟨5, 0, 3⟩] 100 true none).2 = none := by
    norm_num [calculatePos, renderGuard]
  refine ⟨h1, ?_⟩
  rw [h1]
  simp

/-- C4 amended: in historical mode (`realtime = false`, no time window) a
non-empty sorted entity renders no position when `currentTime` is at or
after the last stored timestamp, or strictly before the first one; in
real-time mode (no time window) `calculatePos` renders the most recent
stored point's coordinates for every `currentTime` — provided both of those
coordinates are nonzero (a zero coordinate renders nothing). -/
theorem c4_no_forward_extrapolation_amended :
    (∀ (l : List Point) (t : ℚ) (lp : Point), ptsSorted l →
      l.getLast? = some lp → lp.ts ≤ t →
      (calculatePos true l t false none).2 = none) ∧
    (∀ (l : List Point) (t : ℚ) (hp : Point), l.head? = some hp → t < hp.ts →
      (calculatePos true l t false none).2 = none) ∧
    (∀ (l : List Point) (t : ℚ) (lp : Point), l.getLast? = some lp →
      lp.lat ≠ 0 → lp.lon ≠ 0 →
      (calculatePos true l t true none).2 = some (lp.lat, lp.lon)) := by
  refine ⟨?_, ?_, ?_⟩
  · intro l t lp hs hl hle
    have hall : l.findIdx (fun q => decide (t < q.ts)) = l.length := by
      rw [List.findIdx_eq_length]
      intro x hx
      simp [not_lt.mpr (le_trans (ptsSorted_le_last hs hl x hx) hle)]
    have hnone : histLookup l t = none := by
      simp only [histLookup, hall]
      rw [if_neg]
      rintro ⟨-, hlt⟩
      exact lt_irrefl _ hlt
    have hcp : (calculatePos true l t false none).2
        = renderGuard (histLookup l t) := by
      simp [calculatePos]
    rw [hcp, hnone]
    rfl
  · intro l t hp hh hlt
    cases l with
    | nil => simp at hh
    | cons x xs =>
      rw [List.head?_cons, Option.some.injEq] at hh
      subst hh
      have hzero : (x :: xs).findIdx (fun q => decide (t < q.ts)) = 0 := by
        simp [List.findIdx_cons, hlt]
      have hnone : histLookup (x :: xs) t = none := by
        simp only [histLookup, hzero]
        rw [if_neg]
        rintro ⟨hne, -⟩
        exact hne rfl
      have hcp : (calculatePos true (x :: xs) t false none).2
          = renderGuard (histLookup (x :: xs) t) := by
        simp [calculatePos]
      rw [hcp, hnone]
      rfl
  · intro l t lp hl hla hlo
    have hcp : (calculatePos true l t true none).2
        = renderGuard (match l.getLast? with
            | some lastPoint => some (lastPoint.lat, lastPoint.lon)
            | none => none) := by
      simp [calculatePos]
    rw [hcp, hl]
    exact renderGuard_of_ne hla hlo

/-- Witness for C4 amended at concrete inputs: `currentTime` at the last
timestamp or before the first renders nothing in historical mode, and
real-time mode renders the latest point `(2, 3)` even at `currentTime =
100`. -/
theorem c4_no_forward_extrapolation_amended_witness :
    (calculatePos true [⟨0, 1, 1⟩, ⟨10, 2, 2⟩] 10 false none).2 = none ∧
    (calculatePos true [⟨0, 1, 1⟩, ⟨10, 2, 2⟩] (-1) false none).2 = none ∧
    (calculatePos true [⟨1, 1, 1⟩, ⟨5, 2, 3⟩] 100 true none).2 = some (2, 3) :=
  ⟨c4_no_forward_extrapolation_amended.1 [⟨0, 1, 1⟩, ⟨10, 2, 2⟩] 10 ⟨10, 2, 2⟩
      (by norm_num [ptsSorted, List.pairwise_cons]) rfl (by norm_num),
   c4_no_forward_extrapolation_amended.2.1 [⟨0, 1, 1⟩, ⟨10, 2, 2⟩] (-1) ⟨0, 1, 1⟩
      rfl (by norm_num),
   c4_no_forward_extrapolation_amended.2.2 [⟨1, 1, 1⟩, ⟨5, 2, 3⟩] 100 ⟨5, 2, 3⟩
      rfl (by norm_num) (by norm_num)⟩

/-- C10: a marker is rendered (placed or moved) only when both computed
coordinates are nonzero; and at a concrete input whose interpolated
latitude is `0` (a point crossing the equator) the rendered position is
cleared even though an interpolated position exists. -/
theorem c10_render_nonzero :
    (∀ (so : Bool) (l : List Point) (t : ℚ) (rt : Bool) (tw : Option ℚ)
      (la lo : ℚ), (calculatePos so l t rt tw).2 = some (la, lo) →
      la ≠ 0 ∧ lo ≠ 0) ∧
    (histLookup [⟨0, -5, 30⟩, ⟨10, 5, 30⟩] 5 = some (0, 30) ∧
     (calculatePos true [⟨0, -5, 30⟩, ⟨10, 5, 30⟩] 5 false none).2 = none) := by
  refine ⟨?_, ?_, ?_⟩
  · intro so l t rt tw la lo h
    cases so with
    | false => simp [calculatePos] at h
    | true =>
      simp only [calculatePos] at h
      simp only [if_true, eq_self_iff_true, if_pos] at h
      exact renderGuard_eq_some h
  · norm_num [histLookup, List.findIdx_cons]
  · norm_num [calculatePos, renderGuard, histLookup, List.findIdx_cons]

/-- Witness for C10: a real-time render that does happen has both
coordinates nonzero. -/
theorem c10_render_nonzero_witness : (3 : ℚ) ≠ 0 ∧ (4 : ℚ) ≠ 0 :=
  c10_render_nonzero.1 true [⟨0, 3, 4⟩] 0 true none 3 4
    (by norm_num [calculatePos, renderGuard])

/-- JavaScript truthiness of an optional number: `null`/`undefined` and `0`
are falsy. -/
def jsTruthy (v : Option ℚ) : Bool :=
  match v with
  | some x => decide (x ≠ 0)
  | none => false

/-- `v || dflt` for an optional number `v`: the default is used when `v` is
absent or `0` (falsy). -/
def falsyOr (v : Option ℚ) (dflt : ℚ) : ℚ :=
  match v with
  | some x => if x = 0 then dflt else x
  | none => dflt

/-- JavaScript number coercion of an optional number where `null` coerces to
`0` (as it does in `null - tw` and in `Math.max(..., null)`). -/
def optNum (v : Option ℚ) : ℚ :=
  match v with
  | some x => x
  | none => 0

/-- One incoming element of an `addDataPoints` batch:
`{ obj: [fields], point: { ts, lat, lon } }`. -/
structure DataItem where
  obj : List (String × String)
  point : Point
deriving DecidableEq

/-- The acceptance test of `addDataPoints`:
`!realtime || !currentTime || currentTime < p.point.ts`, with JavaScript
short-circuiting and truthiness (an unset or zero `currentTime` is falsy). -/
def acceptPoint (realtime : Bool) (currentTime : Option ℚ) (ts : ℚ) : Bool :=
  if !realtime then true
  else if !(jsTruthy currentTime) then true
  else
    match currentTime with
    | some c => decide (c < ts)
    | none => true

/-- `MapObjectsViewModel.addDataPoints(data)`.  Returns the list of batch
elements actually forwarded to `collection.addData`, together with the
model's `beginTime` and `endTime` after the call.  Accepted points extend
the local `beginTime` / `endTime` via `Math.min` / `Math.max` with the
`|| p.point.ts` fallback; afterwards, when a `timeWindow` attribute is set,
`beginTime = Math.max(endTime - timeWindow, beginTime)` (JavaScript coerces
a `null` operand to `0` there), and each bound is written back to the model
only when truthy. -/
def addDataPoints (realtime : Bool) (currentTime beginTime0 endTime0 : Option ℚ)
    (timeWindow : Option ℚ) (data : List DataItem) :
    List DataItem × Option ℚ × Option ℚ :=
  let step := fun (acc : List DataItem × Option ℚ × Option ℚ) (p : DataItem) =>
    if acceptPoint realtime currentTime p.point.ts then
      (acc.1 ++ [p],
       some (min p.point.ts (falsyOr acc.2.1 p.point.ts)),
       some (max p.point.ts (falsyOr acc.2.2 p.point.ts)))
    else acc
  let r := data.foldl step ([], beginTime0, endTime0)
  let b1 :=
    match timeWindow with
    | some tw => some (max (optNum r.2.2 - tw) (optNum r.2.1))
    | none => r.2.1
  let finalBegin := if jsTruthy b1 then b1 else beginTime0
  let finalEnd := if jsTruthy r.2.2 then r.2.2 else endTime0
  (r.1, finalBegin, finalEnd)

/-- C5 counterexample: in real-time mode with `currentTime = 5` a batch
point with `ts = 5` satisfies the claim's acceptance condition
`ts ≥ currentTime`, yet the code forwards nothing — the test is the strict
`currentTime < ts`. -/
theorem c5_equal_ts_rejected_counterexample :
    (addDataPoints true (some 5) none none none [⟨[], ⟨5, 1, 1⟩⟩]).1 = [] ∧
    (5 : ℚ) ≥ 5 := by
  constructor
  · norm_num [addDataPoints, acceptPoint, jsTruthy]
  · norm_num

/-- C5 amended: a batch pair is forwarded (in order) iff the mode is not
real-time, or `currentTime` is unset *or zero* (falsy), or the point's
timestamp is *strictly greater* than `currentTime`; a rejected pair is
simply skipped.  Accepted points extend the `[beginTime, endTime]` bounds
(shown at a concrete batch). -/
theorem c5_accept_condition_amended :
    (∀ (realtime : Bool) (currentTime beginTime0 endTime0 timeWindow : Option ℚ)
      (data : List DataItem),
      (addDataPoints realtime currentTime beginTime0 endTime0 timeWindow data).1
        = data.filter (fun p => acceptPoint realtime currentTime p.point.ts)) ∧
    (∀ (realtime : Bool) (currentTime : Option ℚ) (ts : ℚ),
      acceptPoint realtime currentTime ts = true ↔
        (realtime = false ∨ currentTime = none ∨ currentTime = some 0 ∨
          ∃ c, currentTime = some c ∧ c < ts)) ∧
    (addDataPoints false none none none none
        [⟨[], ⟨3, 1, 1⟩⟩, ⟨[], ⟨7, 1, 1⟩⟩]).2 = (some 3, some 7) := by
  refine ⟨?_, ?_, ?_⟩
  · intro realtime currentTime beginTime0 endTime0 timeWindow data
    have hfold : ∀ (d : List DataItem) (acc : List DataItem) (b e : Option ℚ),
        (d.foldl (fun (acc : List DataItem × Option ℚ × Option ℚ) (p : DataItem) =>
          if acceptPoint realtime currentTime p.point.ts then
            (acc.1 ++ [p],
             some (min p.point.ts (falsyOr acc.2.1 p.point.ts)),
             some (max p.point.ts (falsyOr acc.2.2 p.point.ts)))
          else acc) (acc, b, e)).1
          = acc ++ d.filter (fun p => acceptPoint realtime currentTime p.point.ts) := by
      intro d
      induction d with
      | nil =>
        intro acc b e
        simp
      | cons p rest ih =>
        intro acc b e
        by_cases hp : acceptPoint realtime currentTime p.point.ts = true
        · simp only [List.foldl_cons, if_pos hp, List.filter_cons, hp, if_true]
          rw [ih]
          simp
        · have hp' : acceptPoint realtime currentTime p.point.ts = false := by
            simpa using hp
          simp only [List.foldl_cons, hp', Bool.false_eq_true, if_false,
            List.filter_cons, hp']
          exact ih acc b e
    simpa [addDataPoints] using hfold data [] beginTime0 endTime0
  · intro realtime currentTime ts
    cases realtime with
    | false => simp [acceptPoint]
    | true =>
      match currentTime with
      | none => simp [acceptPoint, jsTruthy]
      | some c =>
        by_cases hc : c = 0
        · subst hc
          simp [acceptPoint, jsTruthy]
        · have htr : jsTruthy (some c) = true := by
            simp [jsTruthy, hc]
          have hacc : acceptPoint true (some c) ts = decide (c < ts) := by
            simp [acceptPoint, htr]
          rw [hacc]
          constructor
          · intro h
            exact Or.inr (Or.inr (Or.inr ⟨c, rfl, of_decide_eq_true h⟩))
          · rintro (h | h | h | ⟨d, hd, hlt⟩)
            · simp at h
            · simp at h
            · rw [Option.some.injEq] at h
              exact absurd h hc
            · rw [Option.some.injEq] at hd
              subst hd
              exact decide_eq_true hlt
  · norm_num [addDataPoints, acceptPoint, jsTruthy, falsyOr]

/-- The playback-relevant state of `MapObjectsViewModel`.  `playing` models
`has('playInterval')` (an interval exists); absent Backbone attributes are
`none`. -/
structure MapObjectsViewModel where
  graduality : ℚ
  speed : ℚ
  realtime : Bool
  timeWindow : Option ℚ
  currentTime : Option ℚ
  beginTime : Option ℚ
  endTime : Option ℚ
  playing : Bool
deriving DecidableEq

/-- `play()`: bail out when `beginTime`/`endTime` is unset or already in
play mode; in real-time mode jump `currentTime` to `endTime` without
starting a timer; in historical mode initialize `currentTime` to
`beginTime` when unset and start the interval. -/
def play (s : MapObjectsViewModel) : MapObjectsViewModel :=
  if s.beginTime.isNone || s.endTime.isNone || s.playing then s
  else if s.realtime then { s with currentTime := s.endTime }
  else
    let s1 :=
      if s.currentTime.isNone then { s with currentTime := s.beginTime } else s
    { s1 with playing := true }

/-- One firing of the interval callback installed by `play()`:
`currentTime += speed / graduality`, then `pause()` when the new time
strictly exceeds `endTime`.  The callback only fires while the interval is
active (`playing`); recomputing entity positions is a collaborator effect
of `currentTime(value)` and is not part of the clock state.  (`endTime` is
always set while playing; an absent one would coerce to `NaN` in the
comparison, which we render as `0` via `optNum`.) -/
def tick (s : MapObjectsViewModel) : MapObjectsViewModel :=
  if s.playing then
    match s.currentTime with
    | none => s
    | some ct =>
      let ct2 := ct + s.speed / s.graduality
      let s1 := { s with currentTime := some ct2 }
      if ct2 > optNum s.endTime then { s1 with playing := false } else s1
  else s

/-- The interval period chosen by `play()`, in milliseconds:
`1000 / graduality`. -/
def tickIntervalMs (s : MapObjectsViewModel) : ℚ :=
  1000 / s.graduality

/-- C8: every tick advances `currentTime` by exactly `speed / graduality`
and pauses iff the advanced time strictly exceeds `endTime`; concretely,
`play()` with `beginTime = 0`, `endTime = 10`, `speed = 10`,
`graduality = 2` ticks every `500` ms, advances by `5` per tick, is still
playing at times `5` and `10`, and pauses on the tick that reaches `15`. -/
theorem c8_playback_tick :
    (∀ (s : MapObjectsViewModel) (ct et : ℚ), s.playing = true →
      s.currentTime = some ct → s.endTime = some et →
      (tick s).currentTime = some (ct + s.speed / s.graduality) ∧
      ((tick s).playing = false ↔ ct + s.speed / s.graduality > et)) ∧
    ((play ⟨2, 10, false, none, none, some 0, some 10, false⟩).currentTime
        = some 0 ∧
     (play ⟨2, 10, false, none, none, some 0, some 10, false⟩).playing = true ∧
     tick (play ⟨2, 10, false, none, none, some 0, some 10, false⟩)
        = ⟨2, 10, false, none, some 5, some 0, some 10, true⟩ ∧
     tick ⟨2, 10, false, none, some 5, some 0, some 10, true⟩
        = ⟨2, 10, false, none, some 10, some 0, some 10, true⟩ ∧
     tick ⟨2, 10, false, none, some 10, some 0, some 10, true⟩
        = ⟨2, 10, false, none, some 15, some 0, some 10, false⟩ ∧
     tickIntervalMs ⟨2, 10, false, none, none, some 0, some 10, false⟩ = 500) := by
  constructor
  · intro s ct et hp hct het
    simp only [tick, hp, if_true, hct]
    by_cases hgt : ct + s.speed / s.graduality > optNum s.endTime
    · rw [if_pos hgt]
      refine ⟨rfl, ?_⟩
      simp only [true_iff]
      rw [het] at hgt
      exact hgt
    · rw [if_neg hgt]
      refine ⟨rfl, ?_⟩
      rw [het] at hgt
      simp only [optNum] at hgt
      simp [hgt]
  · refine ⟨rfl, rfl, ?_, ?_, ?_, ?_⟩
    · norm_num [play, tick, optNum]
    · norm_num [tick, optNum]
    · norm_num [tick, optNum]
    · norm_num [tickIntervalMs]

/-- Witness for C8 at a concrete playing state: one tick from time `4`
with `speed = 6`, `graduality = 3` reaches `6` and pauses (it exceeds
`endTime = 5`). -/
theorem c8_playback_tick_witness :
    (tick ⟨3, 6, false, none, some 4, some 0, some 5, true⟩).currentTime
      = some (4 + 6 / 3) ∧
    ((tick ⟨3, 6, false, none, some 4, some 0, some 5, true⟩).playing = false ↔
      4 + (6 : ℚ) / 3 > 5) :=
  c8_playback_tick.1 ⟨3, 6, false, none, some 4, some 0, some 5, true⟩ 4 5
    rfl rfl rfl

/-- The observable state of one `MapObject` held by the dictionary. -/
structure RegModel where
  modelId : String
  obj : List (String × String)
  points : List JSPoint
  showObject : Bool
  showRoute : Bool
deriving DecidableEq

/-- The `MapObjectsDictionary` state: the keyed model collection (keys are
unique, as in a JavaScript object) and the two bulk flags. -/
structure MapObjectsDictionary where
  models : List RegModel
  showAllObjects : Bool
  showAllRoutes : Bool
deriving DecidableEq

/-- Backbone events triggered by the dictionary. -/
inductive DictEvent where
  | add (id : String)
  | remove (id : String)
  | reset
deriving DecidableEq

/-- `JSON.stringify(obj)` for a flat record of string fields, in insertion
order — the naive identity serialization used by `addData`. -/
def jsonStringify (obj : List (String × String)) : String :=
  let quote : String := "\""
  let colon : String := ":"
  let comma : String := ","
  let inner := obj.foldl
    (fun acc kv =>
      let item := quote ++ kv.1 ++ quote ++ colon ++ quote ++ kv.2 ++ quote
      if acc.isEmpty then item else acc ++ comma ++ item)
    ""
  "\x7b" ++ inner ++ "\x7d"

/-- `this.models.hasOwnProperty(id)` / `this.models[id]`. -/
def lookupModel (d : MapObjectsDictionary) (id : String) : Option RegModel :=
  d.models.find? (fun m => m.modelId == id)

/-- The dictionary's `change:showObject` subscription: when all objects are
currently marked visible and one model just became invisible, demote
`showAllObjects` silently (no fan-out). -/
def onShowObjectChanged (d : MapObjectsDictionary) (showObject : Bool) :
    MapObjectsDictionary :=
  if d.showAllObjects && !showObject then { d with showAllObjects := false }
  else d

/-- `model.showObject(value)` for the model with the given id, as observed
through the dictionary: the model's flag is set, and when the value actually
changed Backbone fires `change:showObject`, running the dictionary's
subscription above. -/
def setModelShowObject (d : MapObjectsDictionary) (id : String) (value : Bool) :
    MapObjectsDictionary :=
  match lookupModel d id with
  | none => d
  | some m =>
    let changed := m.showObject != value
    let updated := d.models.map
      (fun n => if n.modelId == id then { n with showObject := value } else n)
    let d1 := { d with models := updated }
    if changed then onShowObjectChanged d1 value else d1

/-- `MapObjectsDictionary.showAllObjects(value, silent)` (setter form): set
the flag; when the value changed and the call is not silent, fan the new
value out to every model via `each`. -/
def showAllObjectsSet (d : MapObjectsDictionary) (value silent : Bool) :
    MapObjectsDictionary :=
  let oldValue := d.showAllObjects
  let d1 := { d with showAllObjects := value }
  if oldValue != value && !silent then
    (d1.models.map (fun m => m.modelId)).foldl
      (fun acc i => setModelShowObject acc i value) d1
  else d1

/-- `MapObjectsDictionary.addData(obj, point)`.  The id is the JSON
serialization of `obj`.  For an unseen id a fresh model is stored in
`this.models`, the `add` event is triggered and the visibility subscriptions
are attached — all *before* `model.add(point)` is attempted — so a throwing
`add` still leaves the (empty) model registered and the event emitted.
Returns the dictionary state after the call, the triggered events, and the
propagated error, if any. -/
def MapObjectsDictionary.addData (d : MapObjectsDictionary)
    (obj : List (String × String)) (point : Option JSPoint) :
    MapObjectsDictionary × List DictEvent × Option AddError :=
  let id := jsonStringify obj
  match lookupModel d id with
  | some m =>
    let r := addState m.points point
    let updated := d.models.map
      (fun n => if n.modelId == id then { n with points := r.1 } else n)
    ({ d with models := updated }, [], r.2)
  | none =>
    let r := addState [] point
    let m0 : RegModel :=
      { modelId := id, obj := obj, points := r.1,
        showObject := d.showAllObjects, showRoute := d.showAllRoutes }
    ({ d with models := d.models ++ [m0] }, [DictEvent.add id], r.2)

theorem map_self {α : Type} (l : List α) (f : α → α) (h : ∀ a ∈ l, f a = a) :
    l.map f = l := by
  induction l with
  | nil => rfl
  | cons x xs ih =>
    rw [List.map_cons, h x (List.mem_cons_self x xs),
      ih (fun a ha => h a (List.mem_cons_of_mem x ha))]

/-- With unique keys, looking a member model up by its own id finds it. -/
theorem find?_modelId_of_mem {l : List RegModel} {m : RegModel}
    (hnd : (l.map RegModel.modelId).Nodup) (hm : m ∈ l) :
    l.find? (fun n => n.modelId == m.modelId) = some m := by
  induction l with
  | nil => simp at hm
  | cons x xs ih =>
    rw [List.map_cons, List.nodup_cons] at hnd
    rcases List.mem_cons.mp hm with rfl | hm'
    · exact List.find?_cons_of_pos xs (by simp)
    · have hne : x.modelId ≠ m.modelId := by
        intro he
        exact hnd.1 (he ▸ List.mem_map_of_mem RegModel.modelId hm')
      rw [List.find?_cons_of_neg xs (by simp [hne])]
      exact ih hnd.2 hm'

/-- Setting a model's visibility to `true` never changes the bulk flag and
rewrites the model list pointwise. -/
theorem setTrue_step (d : MapObjectsDictionary) (id : String) :
    (setModelShowObject d id true).showAllObjects = d.showAllObjects ∧
    (setModelShowObject d id true).models = d.models.map
      (fun n => if n.modelId == id then { n with showObject := true } else n) := by
  unfold setModelShowObject
  cases hl : lookupModel d id with
  | none =>
    have hnomatch : ∀ n ∈ d.models,
        (if n.modelId == id then { n with showObject := true } else n) = n := by
      intro n hn
      rw [if_neg]
      exact List.find?_eq_none.mp hl n hn
    constructor
    · rfl
    · rw [map_self d.models _ hnomatch]
  | some m =>
    have hon : ∀ dx : MapObjectsDictionary, onShowObjectChanged dx true = dx := by
      intro dx
      simp [onShowObjectChanged]
    by_cases hch : (m.showObject != true) = true
    · simp only [hch, if_true, hon]
      exact ⟨trivial, trivial⟩
    · simp only [hch, Bool.false_eq_true, if_false]
      exact ⟨trivial, trivial⟩

/-- Fanning `true` out over any id list keeps the bulk flag. -/
theorem fanoutTrue_flag (ids : List String) :
    ∀ d : MapObjectsDictionary,
      ((ids.foldl (fun acc i => setModelShowObject acc i true) d).showAllObjects
        = d.showAllObjects) := by
  induction ids with
  | nil =>
    intro d
    rfl
  | cons i rest ih =>
    intro d
    rw [List.foldl_cons, ih, (setTrue_step d i).1]

/-- Fanning `true` out over an id list sets `showObject` on exactly the
models whose id is in the list. -/
theorem fanoutTrue_models (ids : List String) :
    ∀ d : MapObjectsDictionary,
      ((ids.foldl (fun acc i => setModelShowObject acc i true) d).models
        = d.models.map
            (fun n => if n.modelId ∈ ids then { n with showObject := true }
              else n)) := by
  induction ids with
  | nil =>
    intro d
    have : ∀ n ∈ d.models,
        (if n.modelId ∈ ([] : List String) then { n with showObject := true }
          else n) = n := by
      intro n _
      rw [if_neg (List.not_mem_nil n.modelId)]
    rw [List.foldl_nil, map_self d.models _ this]
  | cons i rest ih =>
    intro d
    rw [List.foldl_cons, ih, (setTrue_step d i).2, List.map_map]
    apply List.map_congr_left
    intro n _
    simp only [Function.comp_apply]
    by_cases hbeq : (n.modelId == i) = true
    · have heq : n.modelId = i := beq_iff_eq.mp hbeq
      rw [if_pos hbeq]
      have hin : n.modelId ∈ i :: rest := by
        rw [heq]
        exact List.mem_cons_self i rest
      rw [if_pos hin]
      by_cases hrest : n.modelId ∈ rest
      · rw [if_pos hrest]
      · rw [if_neg hrest]
    · have hne : n.modelId ≠ i := fun he => hbeq (beq_iff_eq.mpr he)
      rw [if_neg hbeq]
      by_cases hrest : n.modelId ∈ rest
      · rw [if_pos hrest, if_pos (List.mem_cons_of_mem i hrest)]
      · rw [if_neg hrest, if_neg ?_]
        intro hmem
        rcases List.mem_cons.mp hmem with h | h
        · exact hne h
        · exact hrest h

/-- C7: with `showAllObjects = true` and a visible entity, setting that
entity's visibility to `false` (through its Backbone `change:showObject`
subscription) demotes the registry's bulk flag to `false` while every other
entity's record is untouched; a subsequent non-silent
`showAllObjects(true)` re-raises the flag and fans visibility out to every
entity. -/
theorem c7_visibility_demotion :
    ∀ (d : MapObjectsDictionary) (m : RegModel),
      (d.models.map RegModel.modelId).Nodup →
      d.showAllObjects = true →
      m ∈ d.models → m.showObject = true →
      ((setModelShowObject d m.modelId false).showAllObjects = false ∧
       (∀ n ∈ d.models, n.modelId ≠ m.modelId →
          n ∈ (setModelShowObject d m.modelId false).models) ∧
       (showAllObjectsSet (setModelShowObject d m.modelId false) true
          false).showAllObjects = true ∧
       (∀ n ∈ (showAllObjectsSet (setModelShowObject d m.modelId false) true
          false).models, n.showObject = true)) := by
  intro d m hnd hall hm hshow
  have hfind : lookupModel d m.modelId = some m := find?_modelId_of_mem hnd hm
  have hch : (m.showObject != false) = true := by
    rw [hshow]
    rfl
  have hset : setModelShowObject d m.modelId false =
      ⟨d.models.map (fun n => if n.modelId == m.modelId then
          { n with showObject := false } else n),
        false, d.showAllRoutes⟩ := by
    simp only [setModelShowObject, hfind, hch, if_true, onShowObjectChanged,
      hall, Bool.not_false, Bool.and_self, Bool.and_true]
  refine ⟨?_, ?_, ?_, ?_⟩
  · rw [hset]
  · intro n hn hne
    rw [hset]
    have hgn : (if n.modelId == m.modelId then { n with showObject := false }
        else n) = n := by
      rw [if_neg]
      intro hbeq
      exact hne (beq_iff_eq.mp hbeq)
    exact List.mem_map.mpr ⟨n, hn, hgn⟩
  · rw [hset]
    have hcond : ((false != true) && !false) = true := rfl
    simp only [showAllObjectsSet, hcond, if_true]
    rw [fanoutTrue_flag]
  · rw [hset]
    have hcond : ((false != true) && !false) = true := rfl
    simp only [showAllObjectsSet, hcond, if_true]
    rw [fanoutTrue_models]
    intro n hn
    obtain ⟨a, ha, hfa⟩ := List.mem_map.mp hn
    have hain : a.modelId ∈
        (d.models.map (fun k => if k.modelId == m.modelId then
          { k with showObject := false } else k)).map
            (fun mm => mm.modelId) := by
      exact List.mem_map_of_mem _ ha
    rw [if_pos hain] at hfa
    rw [← hfa]

/-- Witness for C7: a three-entity registry, all visible; hiding the entity
with id `b` demotes the bulk flag and leaves `a` and `c` untouched, and
`showAllObjects(true)` re-shows everything. -/
theorem c7_visibility_demotion_witness :
    ((setModelShowObject ⟨[⟨r"a", [], [], true, true⟩, ⟨r"b", [], [], true, true⟩,
      ⟨r"c", [], [], true, true⟩], true, true⟩ r"b" false).showAllObjects
        = false ∧
     (∀ n ∈ ([⟨r"a", [], [], true, true⟩, ⟨r"b", [], [], true, true⟩,
        ⟨r"c", [], [], true, true⟩] : List RegModel), n.modelId ≠ r"b" →
        n ∈ (setModelShowObject ⟨[⟨r"a", [], [], true, true⟩,
          ⟨r"b", [], [], true, true⟩, ⟨r"c", [], [], true, true⟩], true, true⟩
          r"b" false).models) ∧
     (showAllObjectsSet (setModelShowObject ⟨[⟨r"a", [], [], true, true⟩,
        ⟨r"b", [], [], true, true⟩, ⟨r"c", [], [], true, true⟩], true, true⟩
        r"b" false) true false).showAllObjects = true ∧
     (∀ n ∈ (showAllObjectsSet (setModelShowObject ⟨[⟨r"a", [], [], true, true⟩,
        ⟨r"b", [], [], true, true⟩, ⟨r"c", [], [], true, true⟩], true, true⟩
        r"b" false) true false).models, n.showObject = true)) :=
  c7_visibility_demotion
    ⟨[⟨r"a", [], [], true, true⟩, ⟨r"b", [], [], true, true⟩,
      ⟨r"c", [], [], true, true⟩], true, true⟩
    ⟨r"b", [], [], true, true⟩ (by simp) rfl
    (List.mem_cons_of_mem _ (List.mem_cons_self _ _)) rfl

/-- C9 counterexample: on a fresh registry, `addData` with a new identity
and an invalid point propagates `InvalidPoint`, *and yet* the registry now
holds an (empty) entity for that identity and the `add` lifecycle event was
emitted — the model is stored and the event triggered before
`model.add(point)` runs. -/
theorem c9_entity_created_before_add_counterexample :
    ((MapObjectsDictionary.addData ⟨[], true, true⟩ [(r"a", r"1")]
        (some ⟨JSVal.undef, JSVal.num 1, JSVal.num 1⟩)).2.2
      = some AddError.invalidPoint) ∧
    ((MapObjectsDictionary.addData ⟨[], true, true⟩ [(r"a", r"1")]
        (some ⟨JSVal.undef, JSVal.num 1, JSVal.num 1⟩)).1.models.length = 1) ∧
    ((MapObjectsDictionary.addData ⟨[], true, true⟩ [(r"a", r"1")]
        (some ⟨JSVal.undef, JSVal.num 1, JSVal.num 1⟩)).2.1
      = [DictEvent.add (jsonStringify [(r"a", r"1")])]) := by
  refine ⟨?_, ?_, ?_⟩ <;>
    simp [MapObjectsDictionary.addData, lookupModel, addState, isNumber]

/-- C9 amended: when `addData` is called with an unseen identity and the
point add fails, the error is propagated, but the entity *is* created and
left registered (with an empty points array) and the `add` event *is*
emitted: creation happens before the point is added, and the empty entity
only becomes eligible for later reclamation (`clearEmptyObjects`). -/
theorem c9_entity_creation_on_failure_amended :
    ∀ (d : MapObjectsDictionary) (obj : List (String × String))
      (p : Option JSPoint),
      lookupModel d (jsonStringify obj) = none →
      (addState [] p).2.isSome →
      ((d.addData obj p).2.2 = (addState [] p).2 ∧
       (∃ m, lookupModel (d.addData obj p).1 (jsonStringify obj) = some m ∧
          m.points = [] ∧ m.modelId = jsonStringify obj) ∧
       (d.addData obj p).2.1 = [DictEvent.add (jsonStringify obj)]) := by
  intro d obj p hfresh herr
  have hpts : (addState [] p).1 = [] := addState_error_unchanged [] p herr
  simp only [MapObjectsDictionary.addData, hfresh]
  refine ⟨trivial, ?_, trivial⟩
  refine ⟨⟨jsonStringify obj, obj, (addState [] p).1, d.showAllObjects,
      d.showAllRoutes⟩, ?_, hpts, rfl⟩
  have hfind : d.models.find? (fun m => m.modelId == jsonStringify obj)
      = none := hfresh
  unfold lookupModel
  rw [List.find?_append, hfind, Option.none_or]
  exact List.find?_cons_of_pos _ (by simp)

/-- Witness for C9 amended: adding a missing point under a fresh identity
propagates `InvalidPoint` while registering an empty entity and emitting
the `add` event. -/
theorem c9_entity_creation_on_failure_amended_witness :
    ((MapObjectsDictionary.addData ⟨[], true, false⟩ [(r"b", r"2")] none).2.2
      = (addState [] none).2 ∧
     (∃ m, lookupModel (MapObjectsDictionary.addData ⟨[], true, false⟩
        [(r"b", r"2")] none).1 (jsonStringify [(r"b", r"2")]) = some m ∧
        m.points = [] ∧ m.modelId = jsonStringify [(r"b", r"2")]) ∧
     (MapObjectsDictionary.addData ⟨[], true, false⟩ [(r"b", r"2")] none).2.1
      = [DictEvent.add (jsonStringify [(r"b", r"2")])]) :=
  c9_entity_creation_on_failure_amended ⟨[], true, false⟩ [(r"b", r"2")] none
    rfl rfl

end RouteMap
